import Mathlib

/-!
Verification development for the rule-based query classifier
(`src/components/query_classifier.py` together with `src/schemas/classifier.py`).

The Python code is shallowly embedded: strings become `List Char` with an ASCII
model of the Python character classes (`\w`, `\s`, `string.punctuation`,
`str.lower`), floats become exact numbers (`ℚ` for the rule weights, which are
all rational, and `ℝ` for the TF-IDF feature arithmetic that uses `math.log`),
Python dictionaries become insertion-ordered association lists, and the
`try/except` around each regex evaluation becomes an `Except` value handled
locally.  Wall-clock time (`processing_time_ms`) is environmental and is not
part of the embedding.
-/

namespace Mona

/-- Characters matched by Python's `\s` (ASCII range): space, tab, newline,
carriage return, vertical tab, form feed. -/
def pyIsSpace (c : Char) : Bool :=
  c = ' ' || c = '\t' || c = '\n' || c = '\r' || c = Char.ofNat 11 || c = Char.ofNat 12

/-- Characters matched by Python's `\w` (ASCII range): digits, upper-case and
lower-case letters, and the underscore, written via code-point ranges. -/
def pyIsWord (c : Char) : Bool :=
  let n := c.toNat
  (48 ≤ n && n ≤ 57) || (65 ≤ n && n ≤ 90) || (97 ≤ n && n ≤ 122) || c = '_'

/-- Membership in Python's `string.punctuation` (the 32 ASCII punctuation
characters), written via code-point ranges. -/
def pyIsPunct (c : Char) : Bool :=
  let n := c.toNat
  (33 ≤ n && n ≤ 47) || (58 ≤ n && n ≤ 64) || (91 ≤ n && n ≤ 96) || (123 ≤ n && n ≤ 126)

/-- Abbreviation turning a string literal into the `List Char` the embedding
works over. -/
def lc (s : String) : List Char := s.data

/-- The apostrophe character, built from its code point. -/
def apos : Char := Char.ofNat 39

/-- Python `str.lower` on one character (ASCII model): `A`-`Z` maps down by 32,
everything else is unchanged. -/
def pyLowerChar (c : Char) : Char :=
  if 65 ≤ c.toNat && c.toNat ≤ 90 then Char.ofNat (c.toNat + 32) else c

/-- Python `str.lower` (ASCII model). -/
def pyLower (s : List Char) : List Char := s.map pyLowerChar

/-- Python `str.strip()`: drop whitespace from both ends. -/
def pyStrip (s : List Char) : List Char :=
  ((s.dropWhile pyIsSpace).reverse.dropWhile pyIsSpace).reverse

/-- Worker for `re.sub(r"\s+", " ", ·)`: the flag records whether the previous
character was part of a whitespace run already replaced by one space. -/
def collapseWsAux : Bool → List Char → List Char
  | _, [] => []
  | prevSpace, c :: rest =>
    if pyIsSpace c then
      if prevSpace then collapseWsAux true rest
      else ' ' :: collapseWsAux true rest
    else c :: collapseWsAux false rest

/-- `re.sub(r"\s+", " ", s)`: every maximal whitespace run becomes one space. -/
def collapseWs (s : List Char) : List Char := collapseWsAux false s

/-- Characters kept by `re.sub(r"[^\w\s\.\?\!\-\']", " ", ·)`: word characters,
whitespace, and the five listed punctuation characters. -/
def keepChar (c : Char) : Bool :=
  pyIsWord c || pyIsSpace c || (c = '.' || c = '?' || c = '!' || c = '-' || c = apos)

/-- `re.sub(r"[^\w\s\.\?\!\-\']", " ", s)`: the character class matches single
characters, so the substitution is a pointwise map. -/
def punctSub (s : List Char) : List Char :=
  s.map (fun c => if keepChar c then c else ' ')

/-- `IntegratedQueryClassifier._preprocess_query`:
`query.lower().strip()`, then whitespace collapsing, then punctuation
substitution, in exactly the source's order. -/
def preprocess_query (q : List Char) : List Char :=
  punctSub (collapseWs (pyStrip (pyLower q)))

/-- Worker for Python `str.split()` with no separator: accumulates the current
word (reversed) and drops empty fields. -/
def pySplitAux : List Char → List Char → List (List Char)
  | [], acc => if acc.isEmpty then [] else [acc.reverse]
  | c :: rest, acc =>
    if pyIsSpace c then
      if acc.isEmpty then pySplitAux rest [] else acc.reverse :: pySplitAux rest []
    else pySplitAux rest (c :: acc)

/-- Python `str.split()`: whitespace-delimited words, empties discarded. -/
def pySplit (s : List Char) : List (List Char) := pySplitAux s []

/-- Fuel-driven worker for Python `str.count`: scan left to right, counting
non-overlapping occurrences; a match skips the pattern's length.  Fuel equal to
the scanned list's length always suffices because every step consumes at least
one character. -/
def countOccFuel : Nat → List Char → List Char → Nat
  | 0, _, _ => 0
  | _, _, [] => 0
  | Nat.succ n, pat, c :: rest =>
    if pat.isPrefixOf (c :: rest) then
      1 + countOccFuel n pat (rest.drop (pat.length - 1))
    else countOccFuel n pat rest

/-- Python `s.count(pat)` for non-overlapping occurrences; Python returns
`len(s) + 1` for the empty pattern. -/
def countOcc (pat s : List Char) : Nat :=
  if pat.isEmpty then s.length + 1 else countOccFuel s.length pat s

/-- `IntegratedQueryClassifier._build_stop_words`: the fixed stop-word set
(set membership is all the code uses, so a list with `contains` models it). -/
def build_stop_words : List (List Char) :=
  [lc "a", lc "an", lc "and", lc "are", lc "as", lc "at", lc "be", lc "by",
   lc "for", lc "from", lc "has", lc "he", lc "in", lc "is", lc "it", lc "its",
   lc "of", lc "on", lc "that", lc "the", lc "to", lc "was", lc "were",
   lc "will", lc "with", lc "would"]

/-- Python's substring test `pat in s`: some suffix of `s` starts with `pat`
(true for the empty pattern, as in Python). -/
def pyIn (pat : List Char) : List Char → Bool
  | [] => pat.isEmpty
  | c :: rest => pat.isPrefixOf (c :: rest) || pyIn pat rest

/-- `IntegratedQueryClassifier._extract_keywords`: split on whitespace, keep
words longer than two characters that are not stop words. -/
def extract_keywords (stopWords : List (List Char)) (q : List Char) : List (List Char) :=
  (pySplit q).filter (fun w => !(stopWords.contains w) && decide (2 < w.length))

/-!
Regex engine.  The rule table only uses the constructs: literal characters,
grouping, alternation, the classes `\s` and `\d` (always followed by `+` in the
table, but a bare class is supported), `?` on a single character, the anchors
`^` and `$`, the word boundary `\b`, and `\` escapes of non-alphanumeric
characters (such as `\'`).  The engine handles exactly this fragment;
everything outside it (in particular the malformed pattern `([` from the spec's
fault-tolerance scenario, and constructs such as `[`, `*`, `.` that appear in
no rule) fails to compile, which models `re.error`.  Matching mirrors
`re.search` with `re.IGNORECASE`: a match may start at any position, and
literal characters compare case-folded.
-/

/-- Character classes appearing in the rule patterns. -/
inductive CClass where
  | space : CClass
  | digit : CClass
deriving DecidableEq

/-- Which characters a class matches. -/
def cclassMatch : CClass → Char → Bool
  | CClass.space, c => pyIsSpace c
  | CClass.digit, c => c.isDigit

/-- Abstract syntax for the regex fragment used by the rule table. -/
inductive Regex where
  | eps : Regex
  | lit : Char → Regex
  | cls : CClass → Regex
  | plus : CClass → Regex
  | opt : Char → Regex
  | cat : Regex → Regex → Regex
  | alt : Regex → Regex → Regex
  | bos : Regex
  | eos : Regex
  | wordB : Regex
deriving DecidableEq

/-- Whether position `i` of `full` holds a word character (out of range counts
as a non-word position, as in Python). -/
def isWordAt (full : List Char) (i : Nat) : Bool :=
  match full.get? i with
  | some c => pyIsWord c
  | none => false

/-- Python `\b`: a word boundary sits at `i` iff exactly one of the adjacent
positions holds a word character. -/
def atWordBoundary (full : List Char) (i : Nat) : Bool :=
  match i with
  | 0 => isWordAt full 0
  | Nat.succ j => isWordAt full j != isWordAt full (Nat.succ j)

/-- All positions where a match of `r` beginning at position `i` of `full` can
end (greedy alternatives first, but only existence matters for `re.search`).
Literal and optional characters compare case-folded, modelling
`re.IGNORECASE`. -/
def matchEnds (full : List Char) : Regex → Nat → List Nat
  | Regex.eps, i => [i]
  | Regex.lit c, i =>
    match full.get? i with
    | some d => if pyLowerChar d = pyLowerChar c then [i + 1] else []
    | none => []
  | Regex.cls cc, i =>
    match full.get? i with
    | some d => if cclassMatch cc d then [i + 1] else []
    | none => []
  | Regex.plus cc, i =>
    (List.range ((full.drop i).takeWhile (cclassMatch cc)).length).map (fun k => i + k + 1)
  | Regex.opt c, i =>
    match full.get? i with
    | some d => if pyLowerChar d = pyLowerChar c then [i + 1, i] else [i]
    | none => [i]
  | Regex.cat a b, i => ((matchEnds full a i).map (fun j => matchEnds full b j)).flatten
  | Regex.alt a b, i => matchEnds full a i ++ matchEnds full b i
  | Regex.bos, i => if i = 0 then [i] else []
  | Regex.eos, i => if i = full.length then [i] else []
  | Regex.wordB, i => if atWordBoundary full i then [i] else []

/-- `re.search(r, s)` truthiness: some match starts at some position. -/
def regexSearch (r : Regex) (s : List Char) : Bool :=
  (List.range (s.length + 1)).any (fun i => !(matchEnds s r i).isEmpty)

mutual

/-- Parse an alternation (the whole pattern or a group body). -/
def reAlt : Nat → List Char → Except (List Char) (Regex × List Char)
  | 0, _ => Except.error (lc "pattern too deep")
  | Nat.succ fuel, s => do
    let (r, s1) ← reCat fuel s
    reAltTail fuel r s1

/-- Parse the remaining `|`-separated branches after a first branch. -/
def reAltTail : Nat → Regex → List Char → Except (List Char) (Regex × List Char)
  | 0, _, _ => Except.error (lc "pattern too deep")
  | Nat.succ fuel, acc, s =>
    match s with
    | '|' :: rest => do
      let (r, s1) ← reCat fuel rest
      reAltTail fuel (Regex.alt acc r) s1
    | _ => Except.ok (acc, s)

/-- Parse a concatenation of atoms, stopping at `|`, `)` or the end. -/
def reCat : Nat → List Char → Except (List Char) (Regex × List Char)
  | 0, _ => Except.error (lc "pattern too deep")
  | Nat.succ fuel, s =>
    match s with
    | [] => Except.ok (Regex.eps, [])
    | ')' :: _ => Except.ok (Regex.eps, s)
    | '|' :: _ => Except.ok (Regex.eps, s)
    | _ => do
      let (a, s1) ← reAtom fuel s
      let (b, s2) ← reCat fuel s1
      Except.ok (Regex.cat a b, s2)

/-- Parse one atom, including any `+`/`?` suffix the fragment supports. -/
def reAtom : Nat → List Char → Except (List Char) (Regex × List Char)
  | 0, _ => Except.error (lc "pattern too deep")
  | Nat.succ fuel, s =>
    match s with
    | [] => Except.error (lc "missing atom")
    | '(' :: rest => do
      let (r, s1) ← reAlt fuel rest
      match s1 with
      | ')' :: s2 => Except.ok (r, s2)
      | _ => Except.error (lc "missing closing paren")
    | '\\' :: rest =>
      match rest with
      | [] => Except.error (lc "trailing backslash")
      | ec :: rest2 =>
        if ec = 's' || ec = 'd' then
          let cc := if ec = 's' then CClass.space else CClass.digit
          match rest2 with
          | '+' :: rest3 => Except.ok (Regex.plus cc, rest3)
          | '?' :: _ => Except.error (lc "unsupported repeat")
          | '*' :: _ => Except.error (lc "unsupported repeat")
          | _ => Except.ok (Regex.cls cc, rest2)
        else if ec = 'b' then Except.ok (Regex.wordB, rest2)
        else if ec.isAlphanum then Except.error (lc "unsupported escape")
        else
          match rest2 with
          | '?' :: rest3 => Except.ok (Regex.opt ec, rest3)
          | '+' :: _ => Except.error (lc "unsupported repeat")
          | '*' :: _ => Except.error (lc "unsupported repeat")
          | _ => Except.ok (Regex.lit ec, rest2)
    | '^' :: rest => Except.ok (Regex.bos, rest)
    | '$' :: rest => Except.ok (Regex.eos, rest)
    | '[' :: _ => Except.error (lc "unsupported character class")
    | '*' :: _ => Except.error (lc "nothing to repeat")
    | '+' :: _ => Except.error (lc "nothing to repeat")
    | '?' :: _ => Except.error (lc "nothing to repeat")
    | '.' :: _ => Except.error (lc "unsupported wildcard")
    | c :: rest =>
      match rest with
      | '?' :: rest2 => Except.ok (Regex.opt c, rest2)
      | '+' :: _ => Except.error (lc "unsupported repeat")
      | '*' :: _ => Except.error (lc "unsupported repeat")
      | _ => Except.ok (Regex.lit c, rest)

end

/-- `re.compile` for the supported fragment: parse the whole pattern; leftover
input (for instance a stray `)`) or any unsupported construct is a compile
error, modelling `re.error`. -/
def compileRegex (p : List Char) : Except (List Char) Regex :=
  match reAlt (4 * p.length + 16) p with
  | Except.ok (r, []) => Except.ok r
  | Except.ok (_, _ :: _) => Except.error (lc "unbalanced pattern")
  | Except.error e => Except.error e

/-! Schemas (`src/schemas/classifier.py`). -/

/-- `QueryType`: routing categories. -/
inductive QueryType where
  | document_retrieval : QueryType
  | conversational : QueryType
deriving DecidableEq

/-- `RuleType`: kinds of classification rules. -/
inductive RuleType where
  | keyword : RuleType
  | regex : RuleType
  | phrase : RuleType
deriving DecidableEq

/-- `ClassificationRule`: one pattern with its type, weight, category and
description.  Every weight in the source table is a decimal literal, so `ℚ`
represents them exactly. -/
structure ClassificationRule where
  pattern : List Char
  rule_type : RuleType
  weight : ℚ
  category : QueryType
  description : List Char
deriving DecidableEq

/-- `ClassificationConfig`: tuning parameters; pydantic validates the stated
ranges at construction, which `ClassificationConfig.Valid` captures. -/
structure ClassificationConfig where
  confidence_threshold : ℝ
  max_expected_score : ℝ
  separation_weight : ℝ
  strength_weight : ℝ

/-- Field constraints pydantic enforces on `ClassificationConfig`. -/
def ClassificationConfig.Valid (cfg : ClassificationConfig) : Prop :=
  0 ≤ cfg.confidence_threshold ∧ cfg.confidence_threshold ≤ 1 ∧
  0 < cfg.max_expected_score ∧
  0 ≤ cfg.separation_weight ∧ cfg.separation_weight ≤ 1 ∧
  0 ≤ cfg.strength_weight ∧ cfg.strength_weight ≤ 1

/-- The default `ClassificationConfig()`. -/
noncomputable def defaultConfig : ClassificationConfig :=
  { confidence_threshold := 0.5
    max_expected_score := 6.5
    separation_weight := 0.7
    strength_weight := 0.3 }

/-- `DomainStats`: term-frequency table (in dict insertion order) and the total
count. -/
structure DomainStats where
  term_frequencies : List (List Char × Nat)
  total_terms : Nat
deriving DecidableEq

/-! Rule table (`IntegratedQueryClassifier._build_rules`). -/

/-- The `doc_terms` literal list. -/
def docTerms : List (List Char) :=
  [lc "document", lc "file", lc "pdf", lc "report", lc "policy", lc "procedure",
   lc "specification", lc "manual", lc "guide", lc "regulation", lc "compliance",
   lc "workflow", lc "protocol", lc "standard", lc "requirement",
   lc "documentation", lc "docs"]

/-- The `info_patterns` literal list. -/
def infoPatterns : List (List Char) :=
  [lc "what does", lc "how does", lc "where can", lc "show me", lc "find me",
   lc "search for", lc "look up", lc "according to", lc "based on",
   lc "mentioned in", lc "specified in", lc "outlined in", lc "detailed in",
   lc "described in", lc "defined in"]

/-- The `compliance_terms` literal list. -/
def complianceTerms : List (List Char) :=
  [lc "regulation", lc "requirement", lc "guideline", lc "protocol", lc "compliance"]

/-- The `greeting_patterns` literal list (the fourth pattern contains escaped
apostrophes, assembled here from code points). -/
def greetingPatterns : List (List Char) :=
  [lc "^(hi|hello|hey|good\\s+(morning|afternoon|evening))",
   lc "\\b(thanks?|thank\\s+you)\\b",
   lc "\\b(bye|goodbye|see\\s+you|farewell)\\b",
   lc "^(how\\s+are\\s+you|how" ++ ['\\', apos] ++ lc "s\\s+it\\s+going|what" ++
     ['\\', apos] ++ lc "s\\s+up)\\b"]

/-- The `personal_phrases` literal list. -/
def personalPhrases : List (List Char) :=
  [lc "i think", lc "i believe", lc "i feel", lc "in my opinion", lc "personally",
   lc "i like", lc "i prefer", lc "i want", lc "i need", lc "can you help",
   lc "could you", lc "would you", lc "please help"]

/-- The `general_knowledge` literal list (one phrase contains an apostrophe). -/
def generalKnowledge : List (List Char) :=
  [lc "tell me about", lc "explain",
   lc "what" ++ [apos] ++ lc "s the difference between", lc "compare",
   lc "why do", lc "fun fact", lc "famous", lc "popular", lc "best", lc "worst",
   lc "recommend"]

/-- The procedural-reference regex rule pattern. -/
def procPattern : List Char :=
  lc "\\b(step\\s+\\d+|section\\s+\\d+|page\\s+\\d+|chapter\\s+\\d+)\\b"

/-- The informal-response regex rule pattern. -/
def informalPattern : List Char :=
  lc "^(ok|okay|yes|no|sure|alright|got\\s+it)$"

/-- `IntegratedQueryClassifier._build_rules`: the full ordered rule table,
assembled in the source's append order with the source's f-string
descriptions. -/
def build_rules : List ClassificationRule :=
  ((docTerms ++ complianceTerms).map (fun term =>
    { pattern := term, rule_type := RuleType.keyword, weight := 0.9,
      category := QueryType.document_retrieval,
      description := lc "Document-related term: " ++ term })) ++
  (infoPatterns.map (fun p =>
    { pattern := p, rule_type := RuleType.phrase, weight := 0.7,
      category := QueryType.document_retrieval,
      description := lc "Information-seeking pattern: " ++ p })) ++
  [{ pattern := procPattern, rule_type := RuleType.regex, weight := 0.8,
     category := QueryType.document_retrieval,
     description := lc "Procedural reference pattern" }] ++
  (greetingPatterns.map (fun p =>
    { pattern := p, rule_type := RuleType.regex, weight := 0.95,
      category := QueryType.conversational,
      description := lc "Greeting pattern: " ++ p })) ++
  [{ pattern := informalPattern, rule_type := RuleType.regex, weight := 0.95,
     category := QueryType.conversational,
     description := lc "Informal response pattern" }] ++
  ((personalPhrases ++ generalKnowledge).map (fun p =>
    { pattern := p, rule_type := RuleType.phrase, weight := 0.8,
      category := QueryType.conversational,
      description := lc "Personal/general phrase: " ++ p }))

/-- `IntegratedQueryClassifier._build_domain_stats`: the term-frequency table
in dict insertion order, with `total_terms` the sum of the counts. -/
def build_domain_stats : DomainStats :=
  let tf : List (List Char × Nat) :=
    [(lc "hello", 1000), (lc "hi", 800), (lc "thanks", 600), (lc "please", 500),
     (lc "how", 400), (lc "what", 390), (lc "where", 300), (lc "when", 220),
     (lc "policy", 15), (lc "document", 20), (lc "workflow", 8), (lc "manual", 9),
     (lc "protocol", 4)]
  { term_frequencies := tf, total_terms := (tf.map Prod.snd).sum }

/-! Pattern scorer (`IntegratedQueryClassifier._score_pattern_rules`). -/

/-- One entry of the `matched_rules` diagnostic list: the dict
`{pattern, type, weight, category, description}` built on a match. -/
structure MatchedRule where
  pattern : List Char
  rule_type : RuleType
  weight : ℚ
  category : QueryType
  description : List Char
deriving DecidableEq

/-- Values stored in the pattern scorer's `notes` dict. -/
inductive PNote where
  | errText : List Char → PNote
  | matchedList : List MatchedRule → PNote
  | natVal : Nat → PNote
deriving DecidableEq

/-- Python dict assignment `d[k] = v` on an insertion-ordered association
list: replace in place if the key exists, else append. -/
def dictInsert (k : List Char) (v : PNote) : List (List Char × PNote) → List (List Char × PNote)
  | [] => [(k, v)]
  | (k', v') :: rest => if k' = k then (k, v) :: rest else (k', v') :: dictInsert k v rest

/-- Whether a key occurs in a notes dict. -/
def containsKey (k : List Char) : List (List Char × PNote) → Bool
  | [] => false
  | (k', _) :: rest => k' = k || containsKey k rest

/-- Python dict lookup on the association list. -/
def dictLookup (k : List Char) : List (List Char × PNote) → Option PNote
  | [] => none
  | (k', v) :: rest => if k' = k then some v else dictLookup k rest

/-- The matched-rules diagnostic entry for a rule. -/
def mkMatchedRule (r : ClassificationRule) : MatchedRule :=
  { pattern := r.pattern, rule_type := r.rule_type, weight := r.weight,
    category := r.category, description := r.description }

/-- One rule's match attempt: keyword and phrase rules test substring
containment, regex rules compile and search; a compile failure is the
`re.error` the source catches per rule. -/
def ruleMatchResult (r : ClassificationRule) (q : List Char) : Except (List Char) Bool :=
  match r.rule_type with
  | RuleType.keyword => Except.ok (pyIn r.pattern q)
  | RuleType.phrase => Except.ok (pyIn r.pattern q)
  | RuleType.regex =>
    match compileRegex r.pattern with
    | Except.ok re => Except.ok (regexSearch re q)
    | Except.error e => Except.error e

/-- Loop state of `_score_pattern_rules`: both accumulators, the notes built
so far (only `regex_error_*` keys during the loop), and the matched list. -/
structure ScoreState where
  doc : ℚ
  conv : ℚ
  errNotes : List (List Char × PNote)
  matched : List MatchedRule
deriving DecidableEq

/-- The per-rule loop of `_score_pattern_rules`. -/
def scoreRulesGo (q : List Char) : List ClassificationRule → ScoreState → ScoreState
  | [], st => st
  | r :: rest, st =>
    match ruleMatchResult r q with
    | Except.error e =>
      scoreRulesGo q rest
        { st with errNotes := dictInsert (lc "regex_error_" ++ r.pattern) (PNote.errText e) st.errNotes }
    | Except.ok false => scoreRulesGo q rest st
    | Except.ok true =>
      if r.category = QueryType.document_retrieval then
        scoreRulesGo q rest
          { st with doc := st.doc + r.weight, matched := st.matched ++ [mkMatchedRule r] }
      else
        scoreRulesGo q rest
          { st with conv := st.conv + r.weight, matched := st.matched ++ [mkMatchedRule r] }

/-- Result of the pattern scorer: a `FeatureScores` value whose notes carry the
error diagnostics, the matched-rule list, and the match count. -/
structure PatternScores where
  doc_score : ℚ
  conv_score : ℚ
  notes : List (List Char × PNote)
deriving DecidableEq

/-- `IntegratedQueryClassifier._score_pattern_rules`: run the loop from zero
state, then set `notes["matched_rules"]` and `notes["total_matches"]`. -/
def score_pattern_rules (rules : List ClassificationRule) (q : List Char) : PatternScores :=
  let st := scoreRulesGo q rules { doc := 0, conv := 0, errNotes := [], matched := [] }
  { doc_score := st.doc, conv_score := st.conv,
    notes := dictInsert (lc "total_matches") (PNote.natVal st.matched.length)
      (dictInsert (lc "matched_rules") (PNote.matchedList st.matched) st.errNotes) }

/-- The matched-rule list the scorer records for a rule table and query. -/
def pattern_matched_rules (rules : List ClassificationRule) (q : List Char) : List MatchedRule :=
  (scoreRulesGo q rules { doc := 0, conv := 0, errNotes := [], matched := [] }).matched

/-! Feature scorer (`IntegratedQueryClassifier._calculate_feature_scores`). -/

/-- The feature scorer's notes dict: its keys are fixed, so a record models
it. -/
structure FeatNotes where
  tfidf_doc : ℝ
  tfidf_conv : ℝ
  bigrams_doc : List (List Char)
  bigrams_conv : List (List Char)
  has_wh_words : Bool
  query_length : Nat
  has_question_mark : Bool
  punctuation_density : ℚ

/-- Result of the feature scorer. -/
structure FeatureScores where
  doc_score : ℝ
  conv_score : ℝ
  notes : FeatNotes

/-- The TF-IDF-like loop: for each term present as a substring, add
`tf * idf` to the document side when `freq < 20`, else to the conversational
side. -/
noncomputable def tfidfGo (total wc : Nat) (q : List Char) :
    List (List Char × Nat) → ℝ × ℝ → ℝ × ℝ
  | [], acc => acc
  | (term, freq) :: rest, (d, c) =>
    if pyIn term q then
      let tf : ℝ := (countOcc term q : ℝ) / (max 1 wc : Nat)
      let idf : ℝ := Real.log (((total : ℝ) + 1) / ((freq : ℝ) + 1))
      let score := tf * idf
      if freq < 20 then tfidfGo total wc q rest (d + score, c)
      else tfidfGo total wc q rest (d, c + score)
    else tfidfGo total wc q rest (d, c)

/-- Adjacent-word bigrams, each pair joined by a single space. -/
def mkBigrams : List (List Char) → List (List Char)
  | w1 :: w2 :: rest => (w1 ++ [' '] ++ w2) :: mkBigrams (w2 :: rest)
  | _ => []

/-- The fixed document-indicative bigram list. -/
def docBigramSet : List (List Char) := [lc "according to", lc "based on", lc "mentioned in"]

/-- The fixed conversational bigram list. -/
def convBigramSet : List (List Char) := [lc "thank you", lc "please help", lc "can you"]

/-- The wh-word set (a Python set; only `any` membership is used, so order is
irrelevant). -/
def whWords : List (List Char) :=
  [lc "what", lc "how", lc "where", lc "when", lc "why", lc "who"]

/-- `IntegratedQueryClassifier._calculate_feature_scores`: TF-IDF signal, then
bigram signal, then structural signals, accumulated in the source's order. -/
noncomputable def calculate_feature_scores (stats : DomainStats) (q : List Char) : FeatureScores :=
  let words := pySplit q
  let (d1, c1) := tfidfGo stats.total_terms words.length q stats.term_frequencies (0, 0)
  let bigrams := mkBigrams words
  let doc_bigrams := bigrams.filter (fun bg => docBigramSet.contains bg)
  let conv_bigrams := bigrams.filter (fun bg => convBigramSet.contains bg)
  let d2 := d1 + 0.7 * (doc_bigrams.length : ℝ)
  let c2 := c1 + 0.5 * (conv_bigrams.length : ℝ)
  let has_wh := whWords.any (fun w => pyIn w q)
  let d3 := d2 + (if has_wh then (0.8 : ℝ) else 0)
  let d4 := d3 + (if q.contains '?' then (0.6 : ℝ) else 0)
  { doc_score := d4, conv_score := c2,
    notes :=
      { tfidf_doc := d1, tfidf_conv := c1,
        bigrams_doc := doc_bigrams, bigrams_conv := conv_bigrams,
        has_wh_words := has_wh, query_length := words.length,
        has_question_mark := q.contains '?',
        punctuation_density := ((q.filter pyIsPunct).length : ℚ) / (max 1 q.length : Nat) } }

/-! Confidence (`IntegratedQueryClassifier._calculate_confidence`). -/

/-- `IntegratedQueryClassifier._calculate_confidence`: neutral `0.5` on zero
total, otherwise separation and strength combined by the config weights and
clamped above by `1.0`. -/
noncomputable def calculate_confidence (cfg : ClassificationConfig)
    (doc_score conv_score : ℝ) : ℝ :=
  let total := doc_score + conv_score
  if total = 0 then 0.5
  else
    let separation := |doc_score - conv_score| / total
    let strength := max doc_score conv_score / cfg.max_expected_score
    let confidence := separation * cfg.separation_weight + min strength 1 * cfg.strength_weight
    min confidence 1

/-! Orchestration (`IntegratedQueryClassifier.run`). -/

/-- The `detailed_scores` dict assembled by `run` (fixed keys, so a record;
`processing_metadata` is inlined; wall-clock time is not modelled). -/
structure DetailedScores where
  document_final_score : ℝ
  conversational_final_score : ℝ
  confidence : ℝ
  pattern_analysis : List (List Char × PNote)
  feature_analysis : FeatNotes
  original_query : List Char
  processed_query : List Char
  extracted_keywords : List (List Char)
  total_rules_evaluated : Nat

/-- The dict `run` returns on success (minus `processing_time_ms`, which is
environmental). -/
structure RunOutput where
  needs_retrieval : Bool
  classification : QueryType
  confidence : ℝ
  feature_scores : DetailedScores

/-- The success path of `IntegratedQueryClassifier.run` on a textual query:
preprocess, score, combine, classify with `doc_final >= conv_final` breaking
ties toward retrieval, and assemble the result. -/
noncomputable def classify (cfg : ClassificationConfig) (rules : List ClassificationRule)
    (stats : DomainStats) (stopWords : List (List Char)) (q : List Char) : RunOutput :=
  let processed := preprocess_query q
  let rule_scores := score_pattern_rules rules processed
  let feature_scores := calculate_feature_scores stats processed
  let doc_final : ℝ := (rule_scores.doc_score : ℝ) + feature_scores.doc_score
  let conv_final : ℝ := (rule_scores.conv_score : ℝ) + feature_scores.conv_score
  let confidence := calculate_confidence cfg doc_final conv_final
  let classification :=
    if doc_final ≥ conv_final then QueryType.document_retrieval else QueryType.conversational
  { needs_retrieval := decide (classification = QueryType.document_retrieval)
    classification := classification
    confidence := confidence
    feature_scores :=
      { document_final_score := doc_final
        conversational_final_score := conv_final
        confidence := confidence
        pattern_analysis := rule_scores.notes
        feature_analysis := feature_scores.notes
        original_query := q
        processed_query := processed
        extracted_keywords := extract_keywords stopWords processed
        total_rules_evaluated := rules.length } }

/-- Python values a misbehaving caller might pass to `run`. -/
inductive PyVal where
  | pstr : List Char → PyVal
  | pint : Int → PyVal
  | pnone : PyVal

/-- Whether a value is textual. -/
def PyVal.isText : PyVal → Bool
  | PyVal.pstr _ => true
  | _ => false

/-- Errors `run` can raise.  The source's outer `except Exception` wraps any
internal fault (for a non-textual query, the `AttributeError` from
`query.lower()`) into a `ValueError`; the message payload is modelled
loosely. -/
inductive PyErr where
  | valueError : List Char → PyErr

/-- `IntegratedQueryClassifier.run` over dynamically-typed input: a textual
query follows the success path; any other value fails inside
`_preprocess_query` (`.lower()` is missing) and the outer handler re-raises a
`ValueError`, so no result is produced. -/
noncomputable def runAny (cfg : ClassificationConfig) (rules : List ClassificationRule)
    (stats : DomainStats) (stopWords : List (List Char)) (v : PyVal) :
    Except PyErr RunOutput :=
  match v with
  | PyVal.pstr s => Except.ok (classify cfg rules stats stopWords s)
  | PyVal.pint _ =>
    Except.error (PyErr.valueError (lc "Classification failed for query: no attribute lower"))
  | PyVal.pnone =>
    Except.error (PyErr.valueError (lc "Classification failed for query: no attribute lower"))

/-! Bridge lemmas: the tail-recursive scorer loop equals a structural fold,
which the claim proofs reason about. -/

deriving instance DecidableEq for Except

/-- A rule's contribution to the document score. -/
def ruleDocContrib (r : ClassificationRule) (q : List Char) : ℚ :=
  if ruleMatchResult r q = Except.ok true ∧ r.category = QueryType.document_retrieval
  then r.weight else 0

/-- A rule's contribution to the conversational score. -/
def ruleConvContrib (r : ClassificationRule) (q : List Char) : ℚ :=
  if ruleMatchResult r q = Except.ok true ∧ ¬r.category = QueryType.document_retrieval
  then r.weight else 0

/-- Total document score contributed by a rule list. -/
def docContrib (q : List Char) : List ClassificationRule → ℚ
  | [] => 0
  | r :: rest => ruleDocContrib r q + docContrib q rest

/-- Total conversational score contributed by a rule list. -/
def convContrib (q : List Char) : List ClassificationRule → ℚ
  | [] => 0
  | r :: rest => ruleConvContrib r q + convContrib q rest

/-- Matched-rule entries contributed by a rule list, in rule order. -/
def matchedOf (q : List Char) : List ClassificationRule → List MatchedRule
  | [] => []
  | r :: rest =>
    (if ruleMatchResult r q = Except.ok true then [mkMatchedRule r] else []) ++ matchedOf q rest

theorem scoreRulesGo_doc (q : List Char) (R : List ClassificationRule) (st : ScoreState) :
    (scoreRulesGo q R st).doc = st.doc + docContrib q R := by
  induction R generalizing st with
  | nil => simp [scoreRulesGo, docContrib]
  | cons r rest ih =>
    rcases h : ruleMatchResult r q with e | b
    · simp [scoreRulesGo, h, docContrib, ruleDocContrib, ih]
    · rcases b with _ | _
      · simp [scoreRulesGo, h, docContrib, ruleDocContrib, ih]
      · by_cases hc : r.category = QueryType.document_retrieval
        · simp [scoreRulesGo, h, hc, docContrib, ruleDocContrib, ih]
          ring
        · simp [scoreRulesGo, h, hc, docContrib, ruleDocContrib, ih]

theorem scoreRulesGo_conv (q : List Char) (R : List ClassificationRule) (st : ScoreState) :
    (scoreRulesGo q R st).conv = st.conv + convContrib q R := by
  induction R generalizing st with
  | nil => simp [scoreRulesGo, convContrib]
  | cons r rest ih =>
    rcases h : ruleMatchResult r q with e | b
    · simp [scoreRulesGo, h, convContrib, ruleConvContrib, ih]
    · rcases b with _ | _
      · simp [scoreRulesGo, h, convContrib, ruleConvContrib, ih]
      · by_cases hc : r.category = QueryType.document_retrieval
        · simp [scoreRulesGo, h, hc, convContrib, ruleConvContrib, ih]
        · simp [scoreRulesGo, h, hc, convContrib, ruleConvContrib, ih]
          ring

theorem scoreRulesGo_matched (q : List Char) (R : List ClassificationRule) (st : ScoreState) :
    (scoreRulesGo q R st).matched = st.matched ++ matchedOf q R := by
  induction R generalizing st with
  | nil => simp [scoreRulesGo, matchedOf]
  | cons r rest ih =>
    rcases h : ruleMatchResult r q with e | b
    · simp [scoreRulesGo, h, matchedOf, ih]
    · rcases b with _ | _
      · simp [scoreRulesGo, h, matchedOf, ih]
      · by_cases hc : r.category = QueryType.document_retrieval
        · simp [scoreRulesGo, h, hc, matchedOf, ih]
        · simp [scoreRulesGo, h, hc, matchedOf, ih]

theorem containsKey_dictInsert (k k2 : List Char) (v : PNote) (ns : List (List Char × PNote)) :
    containsKey k (dictInsert k2 v ns) = (decide (k2 = k) || containsKey k ns) := by
  induction ns with
  | nil => simp [dictInsert, containsKey]
  | cons kv rest ih =>
    obtain ⟨k', v'⟩ := kv
    by_cases h : k' = k2
    · simp [dictInsert, containsKey, h]
    · by_cases h2 : k' = k
      · subst h2
        simp [dictInsert, containsKey, h, ih]
      · simp [dictInsert, containsKey, h, h2, ih]

theorem scoreRulesGo_errNotes_mono (q : List Char) (R : List ClassificationRule)
    (st : ScoreState) (k : List Char) (h : containsKey k st.errNotes = true) :
    containsKey k (scoreRulesGo q R st).errNotes = true := by
  induction R generalizing st with
  | nil => simpa [scoreRulesGo] using h
  | cons r rest ih =>
    rcases hm : ruleMatchResult r q with e | b
    · simp only [scoreRulesGo, hm]
      exact ih _ (by simp [containsKey_dictInsert, h])
    · rcases b with _ | _
      · simp only [scoreRulesGo, hm]
        exact ih _ h
      · by_cases hc : r.category = QueryType.document_retrieval
        · simp only [scoreRulesGo, hm, hc, if_pos]
          exact ih _ h
        · simp only [scoreRulesGo, hm, hc, if_neg, ite_false]
          exact ih _ h

/-! Claim C2: the confidence formula. -/

/-- C2: `estimate_confidence` returns exactly `0.5` on a zero total, and
otherwise `min(separation * separation_weight + min(strength, 1) *
strength_weight, 1)` with `separation = |doc - conv| / (doc + conv)` and
`strength = max doc conv / max_expected_score`; as a Lean function of the two
scores and the config it is pure and deterministic by construction. -/
theorem confidence_formula (cfg : ClassificationConfig) (doc_score conv_score : ℝ) :
    calculate_confidence cfg doc_score conv_score =
      if doc_score + conv_score = 0 then 0.5
      else
        min (|doc_score - conv_score| / (doc_score + conv_score) * cfg.separation_weight +
          min (max doc_score conv_score / cfg.max_expected_score) 1 * cfg.strength_weight) 1 := by
  rfl

/-! Claim C6: confidence bounds. -/

/-- C6: for nonnegative scores and a config satisfying the pydantic
constraints, the confidence lies in `[0, 1]`. -/
theorem confidence_bounds (cfg : ClassificationConfig) (doc_score conv_score : ℝ)
    (hcfg : cfg.Valid) (hd : 0 ≤ doc_score) (hc : 0 ≤ conv_score) :
    0 ≤ calculate_confidence cfg doc_score conv_score ∧
      calculate_confidence cfg doc_score conv_score ≤ 1 := by
  obtain ⟨-, -, hmes, hsw0, hsw1, hstw0, hstw1⟩ := hcfg
  unfold calculate_confidence
  by_cases h : doc_score + conv_score = 0
  · simp [h]
    norm_num
  · have ht : 0 < doc_score + conv_score := lt_of_le_of_ne (by linarith) (Ne.symm h)
    simp only [h, if_false]
    have hsep0 : 0 ≤ |doc_score - conv_score| / (doc_score + conv_score) :=
      div_nonneg (abs_nonneg _) (le_of_lt ht)
    have hstr0 : 0 ≤ max doc_score conv_score / cfg.max_expected_score :=
      div_nonneg (le_trans hd (le_max_left _ _)) (le_of_lt hmes)
    have hmin0 : 0 ≤ min (max doc_score conv_score / cfg.max_expected_score) 1 :=
      le_min hstr0 zero_le_one
    have hconf0 : 0 ≤ |doc_score - conv_score| / (doc_score + conv_score) * cfg.separation_weight +
        min (max doc_score conv_score / cfg.max_expected_score) 1 * cfg.strength_weight :=
      add_nonneg (mul_nonneg hsep0 hsw0) (mul_nonneg hmin0 hstw0)
    exact ⟨le_min hconf0 zero_le_one, min_le_right _ _⟩

/-- Witness for C6 at `doc_score = 3`, `conv_score = 1` with the default
configuration. -/
theorem confidence_bounds_witness :
    defaultConfig.Valid ∧ 0 ≤ (3 : ℝ) ∧ 0 ≤ (1 : ℝ) ∧
      (0 ≤ calculate_confidence defaultConfig 3 1 ∧
        calculate_confidence defaultConfig 3 1 ≤ 1) := by
  have hv : defaultConfig.Valid := by
    refine ⟨by norm_num [defaultConfig], by norm_num [defaultConfig], by norm_num [defaultConfig],
      by norm_num [defaultConfig], by norm_num [defaultConfig], by norm_num [defaultConfig],
      by norm_num [defaultConfig]⟩
  exact ⟨hv, by norm_num, by norm_num,
    confidence_bounds defaultConfig 3 1 hv (by norm_num) (by norm_num)⟩

/-! Claim C5: the preprocessing pipeline versus its specification. -/

/-- ASCII alphanumerics (no underscore), via code-point ranges. -/
def isAlnumCode (c : Char) : Bool :=
  let n := c.toNat
  (48 ≤ n && n ≤ 57) || (65 ≤ n && n ≤ 90) || (97 ≤ n && n ≤ 122)

/-- Modelled from the spec (claim C5's wording): characters the final
substitution step keeps are exactly the alphanumerics, whitespace, and
`.`, `?`, `!`, `-`, `'` — with no underscore. -/
def claimKeepChar (c : Char) : Bool :=
  isAlnumCode c || pyIsSpace c || (c = '.' || c = '?' || c = '!' || c = '-' || c = apos)

/-- Modelled from the spec (claim C5's wording): lower-case, collapse runs of
whitespace to single spaces and trim the ends, then replace every character
outside `claimKeepChar` by a single space without re-collapsing. -/
def claim_preprocess (q : List Char) : List Char :=
  (collapseWs (pyStrip (pyLower q))).map (fun c => if claimKeepChar c then c else ' ')

/-- The keep-set amended to include the underscore (Python's `\w` keeps it). -/
def amendedKeepChar (c : Char) : Bool :=
  (isAlnumCode c || c = '_') || pyIsSpace c || (c = '.' || c = '?' || c = '!' || c = '-' || c = apos)

/-- Claim C5 as amended: same pipeline, but the characters kept by the final
substitution are the alphanumerics, the underscore, whitespace, and
`.`, `?`, `!`, `-`, `'`. -/
def amended_preprocess (q : List Char) : List Char :=
  (collapseWs (pyStrip (pyLower q))).map (fun c => if amendedKeepChar c then c else ' ')

/-- Counterexample to C5 as stated: the underscore is not alphanumeric, so the
claimed pipeline replaces it by a space, but the code's character class `\w`
keeps it. -/
theorem preprocess_claim_counterexample :
    preprocess_query (lc "_") ≠ claim_preprocess (lc "_") := by
  decide

/-- C5 (amended): the code's preprocessing equals the claimed pipeline once
the underscore joins the kept set. -/
theorem preprocess_spec_amended (q : List Char) :
    preprocess_query q = amended_preprocess q := by
  have hk : ∀ c : Char, keepChar c = amendedKeepChar c := by
    intro c
    simp [keepChar, amendedKeepChar, pyIsWord, isAlnumCode, Bool.or_assoc, Bool.or_comm,
      Bool.or_left_comm]
  unfold preprocess_query amended_preprocess punctSub
  exact List.map_congr_left (fun c _ => by rw [hk])

/-! Claim C8: preprocessing is the identity on normalized queries. -/

/-- One character of an already-normalized query: a lower-case letter, a
digit, a single space, or allowed punctuation. -/
def normChar (c : Char) : Bool :=
  let n := c.toNat
  (97 ≤ n && n ≤ 122) || (48 ≤ n && n ≤ 57) || c = ' ' ||
    (c = '.' || c = '?' || c = '!' || c = '-' || c = apos)

/-- No two adjacent whitespace characters. -/
def singleSpaced : List Char → Bool
  | a :: b :: t => !(pyIsSpace a && pyIsSpace b) && singleSpaced (b :: t)
  | _ => true

/-- An already-normalized query: only normalized characters, single spaces,
none of them leading or trailing. -/
def normalizedQuery (q : List Char) : Bool :=
  q.all normChar && singleSpaced q &&
    !(q.head? == some ' ') && !(q.getLast? == some ' ')

theorem map_self (f : Char → Char) (q : List Char) (h : ∀ c ∈ q, f c = c) : q.map f = q := by
  induction q with
  | nil => rfl
  | cons c t ih =>
    simp only [List.map_cons, h c (List.mem_cons_self c t),
      ih (fun d hd => h d (List.mem_cons_of_mem c hd))]

theorem normChar_cases (c : Char) (hn : normChar c = true) :
    (97 ≤ c.toNat ∧ c.toNat ≤ 122) ∨ (48 ≤ c.toNat ∧ c.toNat ≤ 57) ∨ c = ' ' ∨
      c = '.' ∨ c = '?' ∨ c = '!' ∨ c = '-' ∨ c = apos := by
  unfold normChar at hn
  simp only [Bool.or_eq_true, Bool.and_eq_true, decide_eq_true_eq] at hn
  tauto

theorem normChar_space (c : Char) (hn : normChar c = true) (hs : pyIsSpace c = true) :
    c = ' ' := by
  unfold pyIsSpace at hs
  simp only [Bool.or_eq_true, decide_eq_true_eq] at hs
  rcases hs with ((((h | h) | h) | h) | h) | h
  · exact h
  all_goals (subst h; revert hn; decide)

theorem normChar_pyLowerChar (c : Char) (hn : normChar c = true) : pyLowerChar c = c := by
  unfold pyLowerChar
  rw [if_neg]
  intro hu
  simp only [Bool.and_eq_true, decide_eq_true_eq] at hu
  rcases normChar_cases c hn with h | h | h | h | h | h | h | h
  · omega
  · omega
  all_goals (subst h; revert hu; decide)

theorem normChar_keepChar (c : Char) (hn : normChar c = true) : keepChar c = true := by
  rcases normChar_cases c hn with h | h | h | h | h | h | h | h
  · simp only [keepChar, pyIsWord, Bool.or_eq_true, Bool.and_eq_true, decide_eq_true_eq]
    omega
  · simp only [keepChar, pyIsWord, Bool.or_eq_true, Bool.and_eq_true, decide_eq_true_eq]
    omega
  all_goals (subst h; decide)

theorem pyLower_id (q : List Char) (h : ∀ c ∈ q, normChar c = true) : pyLower q = q :=
  map_self _ q (fun c hc => normChar_pyLowerChar c (h c hc))

theorem pyStrip_id (q : List Char) (h : ∀ c ∈ q, normChar c = true)
    (hh : ¬q.head? = some ' ') (hl : ¬q.getLast? = some ' ') : pyStrip q = q := by
  unfold pyStrip
  have hdrop : ∀ (l : List Char), (∀ c ∈ l, normChar c = true) → ¬l.head? = some ' ' →
      l.dropWhile pyIsSpace = l := by
    intro l hn hhead
    cases l with
    | nil => rfl
    | cons c t =>
      rw [List.dropWhile_cons_of_neg]
      intro hs
      apply hhead
      rw [normChar_space c (hn c (List.mem_cons_self c t)) hs]
      rfl
  rw [hdrop q h hh, hdrop q.reverse (fun c hc => h c (List.mem_reverse.mp hc))
    (by rwa [List.head?_reverse]), List.reverse_reverse]

theorem singleSpaced_tail (a : Char) (t : List Char) (h : singleSpaced (a :: t) = true) :
    singleSpaced t = true := by
  cases t with
  | nil => rfl
  | cons b t2 => exact ((Bool.and_eq_true _ _).mp h).2

theorem singleSpaced_head (a : Char) (t : List Char) (h : singleSpaced (a :: t) = true)
    (ha : pyIsSpace a = true) : ¬t.head? = some ' ' := by
  cases t with
  | nil => simp
  | cons b t2 =>
    have h1 := ((Bool.and_eq_true _ _).mp h).1
    simp only [List.head?_cons, Option.some.injEq]
    intro hb
    subst hb
    rw [ha] at h1
    revert h1
    decide

theorem collapseWsAux_id (q : List Char) : ∀ (b : Bool), (∀ c ∈ q, normChar c = true) →
    singleSpaced q = true → (b = true → ¬q.head? = some ' ') → collapseWsAux b q = q := by
  induction q with
  | nil => intro b _ _ _; rfl
  | cons c t ih =>
    intro b hn hs hb
    by_cases hsp : pyIsSpace c = true
    · have hc : c = ' ' := normChar_space c (hn c (List.mem_cons_self c t)) hsp
      have hbf : b = false := by
        cases b with
        | false => rfl
        | true => exact absurd (by rw [hc]; rfl) (hb rfl)
      subst hbf
      simp only [collapseWsAux, hsp, if_true, Bool.false_eq_true, if_false]
      rw [hc]
      congr 1
      exact ih true (fun d hd => hn d (List.mem_cons_of_mem _ hd)) (singleSpaced_tail c t hs)
        (fun _ => singleSpaced_head c t hs hsp)
    · have hsp2 : pyIsSpace c = false := by
        revert hsp
        cases pyIsSpace c <;> simp
      simp only [collapseWsAux, hsp2, Bool.false_eq_true, if_false]
      congr 1
      exact ih false (fun d hd => hn d (List.mem_cons_of_mem _ hd)) (singleSpaced_tail c t hs)
        (by simp)

theorem punctSub_id (q : List Char) (h : ∀ c ∈ q, normChar c = true) : punctSub q = q :=
  map_self _ q (fun c hc => by rw [if_pos (normChar_keepChar c (h c hc))])

/-- C8: preprocessing fixes every already-normalized query (only lower-case
alphanumerics, single non-leading non-trailing spaces, allowed punctuation),
and is therefore idempotent on any query whose preprocessed form is
normalized. -/
theorem preprocess_fixed_point :
    (∀ q : List Char, normalizedQuery q = true → preprocess_query q = q) ∧
    (∀ q : List Char, normalizedQuery (preprocess_query q) = true →
      preprocess_query (preprocess_query q) = preprocess_query q) := by
  have main : ∀ q : List Char, normalizedQuery q = true → preprocess_query q = q := by
    intro q hq
    unfold normalizedQuery at hq
    simp only [Bool.and_eq_true] at hq
    obtain ⟨⟨⟨hall, hsingle⟩, hhead⟩, hlast⟩ := hq
    have hmem : ∀ c ∈ q, normChar c = true := fun c hc => List.all_eq_true.mp hall c hc
    have hh : ¬q.head? = some ' ' := by
      intro h
      rw [h] at hhead
      revert hhead
      decide
    have hl : ¬q.getLast? = some ' ' := by
      intro h
      rw [h] at hlast
      revert hlast
      decide
    unfold preprocess_query
    rw [pyLower_id q hmem, pyStrip_id q hmem hh hl]
    unfold collapseWs
    rw [collapseWsAux_id q false hmem hsingle (by simp), punctSub_id q hmem]
  exact ⟨main, fun q hq => main _ hq⟩

/-- Witness for C8 at the normalized query `"hello world."`. -/
theorem preprocess_fixed_point_witness :
    normalizedQuery (lc "hello world.") = true ∧
      preprocess_query (lc "hello world.") = lc "hello world." := by
  refine ⟨by decide, preprocess_fixed_point.1 (lc "hello world.") (by decide)⟩

/-! Claim C4: non-textual input raises and yields no result. -/

/-- C4: for every non-textual input, `run` raises (the invalid-input failure
surfaces as the wrapping `ValueError`) and produces no result. -/
theorem nontext_input_raises (cfg : ClassificationConfig) (rules : List ClassificationRule)
    (stats : DomainStats) (stopWords : List (List Char)) (v : PyVal)
    (h : v.isText = false) :
    ∃ m, runAny cfg rules stats stopWords v = Except.error (PyErr.valueError m) := by
  cases v with
  | pstr s => exact absurd h (by simp [PyVal.isText])
  | pint n => exact ⟨_, rfl⟩
  | pnone => exact ⟨_, rfl⟩

/-- Witness for C4 at the integer `12345` with the built-in classifier. -/
theorem nontext_input_raises_witness :
    (PyVal.pint 12345).isText = false ∧
      ∃ m, runAny defaultConfig build_rules build_domain_stats build_stop_words
        (PyVal.pint 12345) = Except.error (PyErr.valueError m) :=
  ⟨rfl, nontext_input_raises defaultConfig build_rules build_domain_stats build_stop_words
    (PyVal.pint 12345) rfl⟩

/-! Claim C9: `confidence_threshold` has no effect on classification. -/

/-- C9: two valid configurations that agree on everything except
`confidence_threshold` classify every query identically (same
`needs_retrieval`, `classification`, `confidence` and `feature_scores`);
the threshold is never read on the classification path. -/
theorem confidence_threshold_unused (cfg1 cfg2 : ClassificationConfig)
    (rules : List ClassificationRule) (stats : DomainStats)
    (stopWords : List (List Char)) (q : List Char)
    (hm : cfg1.max_expected_score = cfg2.max_expected_score)
    (hs : cfg1.separation_weight = cfg2.separation_weight)
    (hw : cfg1.strength_weight = cfg2.strength_weight)
    (h1 : cfg1.Valid) (h2 : cfg2.Valid) :
    classify cfg1 rules stats stopWords q = classify cfg2 rules stats stopWords q := by
  obtain ⟨t1, m1, s1, w1⟩ := cfg1
  obtain ⟨t2, m2, s2, w2⟩ := cfg2
  have hm2 : m1 = m2 := hm
  have hs2 : s1 = s2 := hs
  have hw2 : w1 = w2 := hw
  subst hm2 hs2 hw2
  rfl

/-- Witness for C9: two valid configurations whose thresholds are `0.1` and
`0.9` agree on the query `"hi"`. -/
theorem confidence_threshold_unused_witness :
    ClassificationConfig.Valid ⟨0.1, 6.5, 0.7, 0.3⟩ ∧
      ClassificationConfig.Valid ⟨0.9, 6.5, 0.7, 0.3⟩ ∧
      classify ⟨0.1, 6.5, 0.7, 0.3⟩ build_rules build_domain_stats build_stop_words (lc "hi") =
        classify ⟨0.9, 6.5, 0.7, 0.3⟩ build_rules build_domain_stats build_stop_words (lc "hi") := by
  have hv1 : ClassificationConfig.Valid ⟨0.1, 6.5, 0.7, 0.3⟩ := by
    refine ⟨by norm_num, by norm_num, by norm_num, by norm_num, by norm_num, by norm_num,
      by norm_num⟩
  have hv2 : ClassificationConfig.Valid ⟨0.9, 6.5, 0.7, 0.3⟩ := by
    refine ⟨by norm_num, by norm_num, by norm_num, by norm_num, by norm_num, by norm_num,
      by norm_num⟩
  exact ⟨hv1, hv2, confidence_threshold_unused _ _ build_rules build_domain_stats
    build_stop_words (lc "hi") rfl rfl rfl hv1 hv2⟩

/-! Claim C1: the tie-break rule. -/

theorem score_pattern_rules_doc (rules : List ClassificationRule) (q : List Char) :
    (score_pattern_rules rules q).doc_score = docContrib q rules := by
  simp [score_pattern_rules, scoreRulesGo_doc]

theorem score_pattern_rules_conv (rules : List ClassificationRule) (q : List Char) :
    (score_pattern_rules rules q).conv_score = convContrib q rules := by
  simp [score_pattern_rules, scoreRulesGo_conv]

theorem pattern_matched_rules_eq (rules : List ClassificationRule) (q : List Char) :
    pattern_matched_rules rules q = matchedOf q rules := by
  simp [pattern_matched_rules, scoreRulesGo_matched]

/-- Combined document total of the built-in classifier for a query, as the
claim describes it: rule score plus feature score on the preprocessed text. -/
noncomputable def doc_total (q : List Char) : ℝ :=
  ((score_pattern_rules build_rules (preprocess_query q)).doc_score : ℝ) +
    (calculate_feature_scores build_domain_stats (preprocess_query q)).doc_score

/-- Combined conversational total of the built-in classifier for a query. -/
noncomputable def conv_total (q : List Char) : ℝ :=
  ((score_pattern_rules build_rules (preprocess_query q)).conv_score : ℝ) +
    (calculate_feature_scores build_domain_stats (preprocess_query q)).conv_score

theorem docContrib_empty : docContrib (lc "") build_rules = 0 := by
  simp +decide [build_rules, docTerms, complianceTerms, infoPatterns, greetingPatterns,
    personalPhrases, generalKnowledge, procPattern, informalPattern, docContrib, ruleDocContrib]

theorem convContrib_empty : convContrib (lc "") build_rules = 0 := by
  simp +decide [build_rules, docTerms, complianceTerms, infoPatterns, greetingPatterns,
    personalPhrases, generalKnowledge, procPattern, informalPattern, convContrib, ruleConvContrib]

theorem feature_scores_empty :
    (calculate_feature_scores build_domain_stats (lc "")).doc_score = 0 ∧
      (calculate_feature_scores build_domain_stats (lc "")).conv_score = 0 := by
  constructor <;>
    simp +decide [calculate_feature_scores, tfidfGo, build_domain_stats, pySplit, pySplitAux,
      mkBigrams, docBigramSet, convBigramSet, whWords]

/-- C1: on every textual query the built-in classifier returns
`DOCUMENT_RETRIEVAL` (equivalently `needs_retrieval = true`) exactly when
`doc_total ≥ conv_total`, and in particular the empty query — whose two totals
are both zero — classifies as `DOCUMENT_RETRIEVAL` with
`needs_retrieval = true`. -/
theorem classify_tiebreak :
    (∀ q : List Char,
      ((classify defaultConfig build_rules build_domain_stats build_stop_words q).classification =
          QueryType.document_retrieval ↔ doc_total q ≥ conv_total q) ∧
      ((classify defaultConfig build_rules build_domain_stats build_stop_words q).needs_retrieval =
          true ↔ doc_total q ≥ conv_total q)) ∧
    (classify defaultConfig build_rules build_domain_stats build_stop_words
        (lc "")).classification = QueryType.document_retrieval ∧
    (classify defaultConfig build_rules build_domain_stats build_stop_words
        (lc "")).needs_retrieval = true := by
  have hcls : ∀ q : List Char,
      (classify defaultConfig build_rules build_domain_stats build_stop_words q).classification =
        if doc_total q ≥ conv_total q then QueryType.document_retrieval
        else QueryType.conversational := fun q => rfl
  have hneed : ∀ q : List Char,
      (classify defaultConfig build_rules build_domain_stats build_stop_words q).needs_retrieval =
        decide ((classify defaultConfig build_rules build_domain_stats build_stop_words
          q).classification = QueryType.document_retrieval) := fun q => rfl
  have main : ∀ q : List Char,
      ((classify defaultConfig build_rules build_domain_stats build_stop_words q).classification =
          QueryType.document_retrieval ↔ doc_total q ≥ conv_total q) ∧
      ((classify defaultConfig build_rules build_domain_stats build_stop_words q).needs_retrieval =
          true ↔ doc_total q ≥ conv_total q) := by
    intro q
    have h1 : (classify defaultConfig build_rules build_domain_stats build_stop_words
        q).classification = QueryType.document_retrieval ↔ doc_total q ≥ conv_total q := by
      rw [hcls q]
      by_cases h : doc_total q ≥ conv_total q
      · simp [h]
      · simp [h]
    refine ⟨h1, ?_⟩
    rw [hneed q]
    simp [h1]
  refine ⟨main, ?_, ?_⟩
  · have hz : doc_total (lc "") ≥ conv_total (lc "") := by
      have hd : doc_total (lc "") = 0 := by
        have hp : preprocess_query (lc "") = lc "" := by decide
        unfold doc_total
        rw [hp, score_pattern_rules_doc, docContrib_empty, feature_scores_empty.1]
        norm_num
      have hc : conv_total (lc "") = 0 := by
        have hp : preprocess_query (lc "") = lc "" := by decide
        unfold conv_total
        rw [hp, score_pattern_rules_conv, convContrib_empty, feature_scores_empty.2]
        norm_num
      rw [hd, hc]
    exact (main (lc "")).1.mpr hz
  · have hz : doc_total (lc "") ≥ conv_total (lc "") := by
      have hd : doc_total (lc "") = 0 := by
        have hp : preprocess_query (lc "") = lc "" := by decide
        unfold doc_total
        rw [hp, score_pattern_rules_doc, docContrib_empty, feature_scores_empty.1]
        norm_num
      have hc : conv_total (lc "") = 0 := by
        have hp : preprocess_query (lc "") = lc "" := by decide
        unfold conv_total
        rw [hp, score_pattern_rules_conv, convContrib_empty, feature_scores_empty.2]
        norm_num
      rw [hd, hc]
    exact (main (lc "")).2.mpr hz

/-! Claim C7: the conversational example. -/

theorem docContrib_hello : docContrib (lc "hello  how are you?") build_rules = 0 := by
  simp +decide [build_rules, docTerms, complianceTerms, infoPatterns, greetingPatterns,
    personalPhrases, generalKnowledge, procPattern, informalPattern, docContrib, ruleDocContrib]

theorem convContrib_hello : convContrib (lc "hello  how are you?") build_rules = 0.95 := by
  simp +decide [build_rules, docTerms, complianceTerms, infoPatterns, greetingPatterns,
    personalPhrases, generalKnowledge, procPattern, informalPattern, convContrib, ruleConvContrib]

theorem feature_scores_hello :
    (calculate_feature_scores build_domain_stats (lc "hello  how are you?")).doc_score = 1.4 ∧
      (calculate_feature_scores build_domain_stats (lc "hello  how are you?")).conv_score =
        Real.log (4267 / 1001) / 4 + Real.log (4267 / 401) / 4 := by
  have hstats : build_domain_stats =
      { term_frequencies :=
          [(lc "hello", 1000), (lc "hi", 800), (lc "thanks", 600), (lc "please", 500),
           (lc "how", 400), (lc "what", 390), (lc "where", 300), (lc "when", 220),
           (lc "policy", 15), (lc "document", 20), (lc "workflow", 8), (lc "manual", 9),
           (lc "protocol", 4)],
        total_terms := 4266 } := by decide
  have hw : (pySplit (lc "hello  how are you?")).length = 4 := by decide
  have e1 : countOcc (lc "hello") (lc "hello  how are you?") = 1 := by decide
  have e2 : countOcc (lc "how") (lc "hello  how are you?") = 1 := by decide
  constructor
  · simp +decide [calculate_feature_scores, hstats, hw, tfidfGo, e1, e2,
      mkBigrams, docBigramSet, convBigramSet, whWords, pySplit, pySplitAux]
    norm_num
  · simp +decide [calculate_feature_scores, hstats, hw, tfidfGo, e1, e2,
      mkBigrams, docBigramSet, convBigramSet, whWords, pySplit, pySplitAux]
    norm_num
    ring

/-- C7: with the default configuration and built-in tables,
`classify("Hello, how are you?")` returns `CONVERSATIONAL` and
`needs_retrieval = false`. -/
theorem classify_conversational_example :
    (classify defaultConfig build_rules build_domain_stats build_stop_words
        (lc "Hello, how are you?")).classification = QueryType.conversational ∧
      (classify defaultConfig build_rules build_domain_stats build_stop_words
        (lc "Hello, how are you?")).needs_retrieval = false := by
  have hproc : preprocess_query (lc "Hello, how are you?") = lc "hello  how are you?" := by
    decide
  have hlog : Real.log ((4267 : ℝ) / 1001) + Real.log ((4267 : ℝ) / 401) > 1.8 := by
    have hmul : ((4267 : ℝ) / 1001) * ((4267 : ℝ) / 401) = 18207289 / 401401 := by norm_num
    have h1 : Real.log ((4267 : ℝ) / 1001) + Real.log ((4267 : ℝ) / 401) =
        Real.log ((18207289 : ℝ) / 401401) := by
      rw [← Real.log_mul (by norm_num) (by norm_num), hmul]
    have hexp : Real.exp 2 < (18207289 : ℝ) / 401401 := by
      have he : Real.exp 1 < 2.7182818286 := Real.exp_one_lt_d9
      have hp : (0 : ℝ) < Real.exp 1 := Real.exp_pos 1
      have h2 : Real.exp 2 = Real.exp 1 * Real.exp 1 := by
        rw [← Real.exp_add]
        norm_num
      rw [h2]
      nlinarith
    have h3 : (2 : ℝ) < Real.log ((18207289 : ℝ) / 401401) :=
      (Real.lt_log_iff_exp_lt (by norm_num)).mpr hexp
    rw [h1]
    linarith
  have hlt : doc_total (lc "Hello, how are you?") < conv_total (lc "Hello, how are you?") := by
    unfold doc_total conv_total
    rw [hproc, score_pattern_rules_doc, score_pattern_rules_conv, docContrib_hello,
      convContrib_hello, feature_scores_hello.1, feature_scores_hello.2]
    push_cast
    norm_num
    linarith
  have hcls : (classify defaultConfig build_rules build_domain_stats build_stop_words
      (lc "Hello, how are you?")).classification =
        if doc_total (lc "Hello, how are you?") ≥ conv_total (lc "Hello, how are you?")
        then QueryType.document_retrieval else QueryType.conversational := rfl
  have hneed : (classify defaultConfig build_rules build_domain_stats build_stop_words
      (lc "Hello, how are you?")).needs_retrieval =
        decide ((classify defaultConfig build_rules build_domain_stats build_stop_words
          (lc "Hello, how are you?")).classification = QueryType.document_retrieval) := rfl
  have hc : (classify defaultConfig build_rules build_domain_stats build_stop_words
      (lc "Hello, how are you?")).classification = QueryType.conversational := by
    rw [hcls, if_neg (not_le.mpr hlt)]
  exact ⟨hc, by rw [hneed, hc]; decide⟩

/-! Claim C3: regex fault tolerance. -/

theorem docContrib_append (q : List Char) (A B : List ClassificationRule) :
    docContrib q (A ++ B) = docContrib q A + docContrib q B := by
  induction A with
  | nil => simp [docContrib]
  | cons r rest ih => simp [docContrib, ih, add_assoc]

theorem convContrib_append (q : List Char) (A B : List ClassificationRule) :
    convContrib q (A ++ B) = convContrib q A + convContrib q B := by
  induction A with
  | nil => simp [convContrib]
  | cons r rest ih => simp [convContrib, ih, add_assoc]

theorem matchedOf_append (q : List Char) (A B : List ClassificationRule) :
    matchedOf q (A ++ B) = matchedOf q A ++ matchedOf q B := by
  induction A with
  | nil => simp [matchedOf]
  | cons r rest ih => simp [matchedOf, ih]

theorem matchedOf_mem (q : List Char) (R : List ClassificationRule) (x : MatchedRule)
    (h : x ∈ matchedOf q R) :
    ∃ r' ∈ R, ruleMatchResult r' q = Except.ok true ∧ mkMatchedRule r' = x := by
  induction R with
  | nil => simp [matchedOf] at h
  | cons r rest ih =>
    by_cases hm : ruleMatchResult r q = Except.ok true
    · rw [matchedOf, if_pos hm] at h
      rcases List.mem_append.mp h with h1 | h2
      · exact ⟨r, List.mem_cons_self r rest, hm, (List.mem_singleton.mp h1).symm⟩
      · obtain ⟨r', hr', hm', hx⟩ := ih h2
        exact ⟨r', List.mem_cons_of_mem r hr', hm', hx⟩
    · rw [matchedOf, if_neg hm] at h
      obtain ⟨r', hr', hm', hx⟩ := ih (by simpa using h)
      exact ⟨r', List.mem_cons_of_mem r hr', hm', hx⟩

theorem scoreRulesGo_append (q : List Char) (A B : List ClassificationRule) (st : ScoreState) :
    scoreRulesGo q (A ++ B) st = scoreRulesGo q B (scoreRulesGo q A st) := by
  induction A generalizing st with
  | nil => rfl
  | cons r rest ih =>
    rcases hm : ruleMatchResult r q with e | b
    · simp only [List.cons_append, scoreRulesGo, hm]
      exact ih _
    · rcases b with _ | _
      · simp only [List.cons_append, scoreRulesGo, hm]
        exact ih _
      · by_cases hc : r.category = QueryType.document_retrieval <;>
          simp only [List.cons_append, scoreRulesGo, hm, hc, if_true, if_false, ite_true,
            ite_false] <;> exact ih _

theorem dictLookup_insert_self (k : List Char) (v : PNote) (ns : List (List Char × PNote)) :
    dictLookup k (dictInsert k v ns) = some v := by
  induction ns with
  | nil => simp [dictInsert, dictLookup]
  | cons kv rest ih =>
    obtain ⟨k', v'⟩ := kv
    by_cases h : k' = k
    · simp [dictInsert, dictLookup, h]
    · simp [dictInsert, dictLookup, h, ih]

theorem dictLookup_insert_ne (k k2 : List Char) (v : PNote) (ns : List (List Char × PNote))
    (h : ¬k2 = k) : dictLookup k (dictInsert k2 v ns) = dictLookup k ns := by
  induction ns with
  | nil => simp [dictInsert, dictLookup, h]
  | cons kv rest ih =>
    obtain ⟨k', v'⟩ := kv
    by_cases h2 : k' = k2
    · subst h2
      simp [dictInsert, dictLookup, h]
    · by_cases h3 : k' = k
      · subst h3
        simp [dictInsert, dictLookup, h2, Ne.symm h]
      · simp [dictInsert, dictLookup, h2, h3, ih]

/-- C3: a rule table containing an uncompilable REGEX rule still classifies:
`run` succeeds with a result, the pattern diagnostics contain the note keyed
`regex_error_` + pattern, `matched_rules` excludes the broken rule, and both
scores (and the matched list) equal those of the table without the broken
rule. -/
theorem regex_fault_tolerance (cfg : ClassificationConfig) (stats : DomainStats)
    (stopWords : List (List Char)) (A B : List ClassificationRule)
    (r : ClassificationRule) (q0 : List Char)
    (hr : r.rule_type = RuleType.regex)
    (he : (compileRegex r.pattern).isOk = false) :
    runAny cfg (A ++ r :: B) stats stopWords (PyVal.pstr q0) =
        Except.ok (classify cfg (A ++ r :: B) stats stopWords q0) ∧
      containsKey (lc "regex_error_" ++ r.pattern)
        ((classify cfg (A ++ r :: B) stats stopWords q0).feature_scores.pattern_analysis) =
          true ∧
      (∃ ms, dictLookup (lc "matched_rules")
          ((classify cfg (A ++ r :: B) stats stopWords q0).feature_scores.pattern_analysis) =
            some (PNote.matchedList ms) ∧ mkMatchedRule r ∉ ms) ∧
      (score_pattern_rules (A ++ r :: B) (preprocess_query q0)).doc_score =
        (score_pattern_rules (A ++ B) (preprocess_query q0)).doc_score ∧
      (score_pattern_rules (A ++ r :: B) (preprocess_query q0)).conv_score =
        (score_pattern_rules (A ++ B) (preprocess_query q0)).conv_score ∧
      pattern_matched_rules (A ++ r :: B) (preprocess_query q0) =
        pattern_matched_rules (A ++ B) (preprocess_query q0) := by
  obtain ⟨e, herrc⟩ : ∃ e, compileRegex r.pattern = Except.error e := by
    rcases hcomp : compileRegex r.pattern with re | e2
    · exact ⟨re, rfl⟩
    · rw [hcomp] at he
      simp [Except.isOk, Except.toBool] at he
  have herr : ∀ q, ruleMatchResult r q = Except.error e := by
    intro q
    unfold ruleMatchResult
    rw [hr, herrc]
  have hdocr : ∀ q, ruleDocContrib r q = 0 := by
    intro q
    unfold ruleDocContrib
    rw [if_neg]
    rintro ⟨hok, -⟩
    rw [herr q] at hok
    exact absurd hok (by simp)
  have hconvr : ∀ q, ruleConvContrib r q = 0 := by
    intro q
    unfold ruleConvContrib
    rw [if_neg]
    rintro ⟨hok, -⟩
    rw [herr q] at hok
    exact absurd hok (by simp)
  have hmatchedr : ∀ q, matchedOf q (A ++ r :: B) = matchedOf q (A ++ B) := by
    intro q
    rw [matchedOf_append, matchedOf_append, matchedOf, if_neg (by rw [herr q]; simp)]
    simp
  have hnotmem : ∀ q, mkMatchedRule r ∉ matchedOf q (A ++ r :: B) := by
    intro q hmem
    obtain ⟨r', -, hok, hmk⟩ := matchedOf_mem q _ _ hmem
    have hp : r'.pattern = r.pattern := congrArg MatchedRule.pattern hmk
    have ht : r'.rule_type = r.rule_type := congrArg MatchedRule.rule_type hmk
    rw [ruleMatchResult, ht, hr, hp, herrc] at hok
    exact absurd hok (by simp)
  refine ⟨rfl, ?_, ?_, ?_, ?_, ?_⟩
  · show containsKey (lc "regex_error_" ++ r.pattern)
      (score_pattern_rules (A ++ r :: B) (preprocess_query q0)).notes = true
    unfold score_pattern_rules
    simp only [containsKey_dictInsert]
    have hkey : containsKey (lc "regex_error_" ++ r.pattern)
        (scoreRulesGo (preprocess_query q0) (A ++ r :: B)
          { doc := 0, conv := 0, errNotes := [], matched := [] }).errNotes = true := by
      rw [scoreRulesGo_append]
      rw [show (r :: B) = [r] ++ B from rfl, scoreRulesGo_append]
      apply scoreRulesGo_errNotes_mono
      have hstep : ∀ st : ScoreState, (scoreRulesGo (preprocess_query q0) [r] st).errNotes =
          dictInsert (lc "regex_error_" ++ r.pattern) (PNote.errText e) st.errNotes := by
        intro st
        simp only [scoreRulesGo, herr (preprocess_query q0)]
      rw [hstep]
      simp [containsKey_dictInsert]
    simp [hkey]
  · refine ⟨matchedOf (preprocess_query q0) (A ++ r :: B), ?_, hnotmem (preprocess_query q0)⟩
    show dictLookup (lc "matched_rules")
      (score_pattern_rules (A ++ r :: B) (preprocess_query q0)).notes = _
    unfold score_pattern_rules
    rw [dictLookup_insert_ne _ _ _ _ (by decide), dictLookup_insert_self]
    have hms : (scoreRulesGo (preprocess_query q0) (A ++ r :: B)
        { doc := 0, conv := 0, errNotes := [], matched := [] }).matched =
          matchedOf (preprocess_query q0) (A ++ r :: B) := by
      rw [scoreRulesGo_matched]
      simp
    rw [hms]
  · rw [score_pattern_rules_doc, score_pattern_rules_doc, docContrib_append,
      docContrib_append, docContrib, hdocr]
    ring
  · rw [score_pattern_rules_conv, score_pattern_rules_conv, convContrib_append,
      convContrib_append, convContrib, hconvr]
    ring
  · rw [pattern_matched_rules_eq, pattern_matched_rules_eq, hmatchedr]

/-- Witness for C3: the built-in table extended with a rule whose pattern is
the invalid regex `([`, on the query `"anything"`. -/
theorem regex_fault_tolerance_witness :
    ({ pattern := lc "([", rule_type := RuleType.regex, weight := 0.5,
        category := QueryType.conversational,
        description := lc "broken rule" : ClassificationRule }.rule_type = RuleType.regex ∧
      (compileRegex (lc "([")).isOk = false) ∧
      (runAny defaultConfig (build_rules ++
          [{ pattern := lc "([", rule_type := RuleType.regex, weight := 0.5,
             category := QueryType.conversational, description := lc "broken rule" }])
          build_domain_stats build_stop_words (PyVal.pstr (lc "anything")) =
        Except.ok (classify defaultConfig (build_rules ++
          [{ pattern := lc "([", rule_type := RuleType.regex, weight := 0.5,
             category := QueryType.conversational, description := lc "broken rule" }])
          build_domain_stats build_stop_words (lc "anything")) ∧
      containsKey (lc "regex_error_" ++ lc "([")
        ((classify defaultConfig (build_rules ++
          [{ pattern := lc "([", rule_type := RuleType.regex, weight := 0.5,
             category := QueryType.conversational, description := lc "broken rule" }])
          build_domain_stats build_stop_words
          (lc "anything")).feature_scores.pattern_analysis) = true) := by
  have h := regex_fault_tolerance defaultConfig build_domain_stats build_stop_words
    build_rules []
    { pattern := lc "([", rule_type := RuleType.regex, weight := 0.5,
      category := QueryType.conversational, description := lc "broken rule" }
    (lc "anything") rfl (by decide)
  exact ⟨⟨rfl, by decide⟩, h.1, h.2.1⟩

/-! Claim C10: duplicated keyword rules for the four shared terms. -/

/-- The keyword rule `_build_rules` creates for a document term. -/
def docRule (t : List Char) : ClassificationRule :=
  { pattern := t, rule_type := RuleType.keyword, weight := 0.9,
    category := QueryType.document_retrieval,
    description := lc "Document-related term: " ++ t }

theorem docContrib_filter_partition (q : List Char) (R : List ClassificationRule)
    (p : ClassificationRule → Bool) :
    docContrib q R = docContrib q (R.filter p) + docContrib q (R.filter (fun r => !(p r))) := by
  induction R with
  | nil => simp [docContrib]
  | cons r rest ih =>
    by_cases h : p r = true
    · simp only [List.filter_cons, h, if_true, Bool.not_true, Bool.false_eq_true, if_false,
        docContrib, ih]
      ring
    · have h2 : p r = false := by
        revert h
        cases p r <;> simp
      simp only [List.filter_cons, h2, Bool.false_eq_true, if_false, Bool.not_false, if_true,
        docContrib, ih]
      ring

theorem matchedOf_filter_pattern (q : List Char) (R : List ClassificationRule)
    (f : List Char → Bool) :
    (matchedOf q R).filter (fun m => f m.pattern) =
      matchedOf q (R.filter (fun r => f r.pattern)) := by
  induction R with
  | nil => simp [matchedOf]
  | cons r rest ih =>
    have hpat : (mkMatchedRule r).pattern = r.pattern := rfl
    by_cases hm : ruleMatchResult r q = Except.ok true
    · by_cases hf : f r.pattern = true
      · simp only [matchedOf, hm, if_true, List.filter_append, List.filter_cons, hpat, hf,
          List.filter_nil, ih]
      · have hf2 : f r.pattern = false := by
          revert hf
          cases f r.pattern <;> simp
        simp only [matchedOf, hm, if_true, List.filter_append, List.filter_cons, hpat, hf2,
          Bool.false_eq_true, if_false, List.filter_nil, List.nil_append, ih]
    · by_cases hf : f r.pattern = true
      · simp only [matchedOf, hm, if_false, List.filter_cons, hf, if_true, List.filter_nil,
          List.nil_append, ih, ite_false, ite_true]
      · have hf2 : f r.pattern = false := by
          revert hf
          cases f r.pattern <;> simp
        simp only [matchedOf, hm, if_false, List.filter_cons, hf2, Bool.false_eq_true,
          List.nil_append, ih, ite_false]

/-- C10: for each of `regulation`, `requirement`, `protocol`, `compliance`,
the table holds exactly two rules with that pattern — both the identical
0.9-weight DOCUMENT_RETRIEVAL keyword rule — and on any query containing the
term, `matched_rules` lists that rule's entry twice and the document score
exceeds the score without those rules by `1.8`. -/
theorem duplicate_compliance_rules :
    ∀ t ∈ [lc "regulation", lc "requirement", lc "protocol", lc "compliance"],
      build_rules.filter (fun r => r.pattern == t) = [docRule t, docRule t] ∧
      ∀ q : List Char, pyIn t q = true →
        (pattern_matched_rules build_rules q).filter (fun m => m.pattern == t) =
            [mkMatchedRule (docRule t), mkMatchedRule (docRule t)] ∧
          (score_pattern_rules build_rules q).doc_score =
            (score_pattern_rules (build_rules.filter (fun r => !(r.pattern == t)))
              q).doc_score + 1.8 := by
  have main : ∀ t : List Char,
      build_rules.filter (fun r => r.pattern == t) = [docRule t, docRule t] →
      ∀ q : List Char, pyIn t q = true →
        (pattern_matched_rules build_rules q).filter (fun m => m.pattern == t) =
            [mkMatchedRule (docRule t), mkMatchedRule (docRule t)] ∧
          (score_pattern_rules build_rules q).doc_score =
            (score_pattern_rules (build_rules.filter (fun r => !(r.pattern == t)))
              q).doc_score + 1.8 := by
    intro t hfilter q hq
    have hmatch : ruleMatchResult (docRule t) q = Except.ok true := by
      simp [ruleMatchResult, docRule, hq]
    constructor
    · rw [pattern_matched_rules_eq, matchedOf_filter_pattern q build_rules (fun p => p == t),
        hfilter]
      simp [matchedOf, hmatch]
    · rw [score_pattern_rules_doc, score_pattern_rules_doc,
        docContrib_filter_partition q build_rules (fun r => r.pattern == t), hfilter]
      have hpair : docContrib q [docRule t, docRule t] = 1.8 := by
        have hcat : (docRule t).category = QueryType.document_retrieval := rfl
        have hw : (docRule t).weight = (0.9 : ℚ) := rfl
        have h1 : ruleDocContrib (docRule t) q = 0.9 := by
          unfold ruleDocContrib
          rw [if_pos ⟨hmatch, hcat⟩, hw]
        simp only [docContrib, h1]
        norm_num
      rw [hpair]
      ring
  intro t ht
  simp only [List.mem_cons, List.not_mem_nil, or_false] at ht
  rcases ht with rfl | rfl | rfl | rfl <;>
    exact ⟨rfl, main _ rfl⟩

/-- Witness for C10: the term `regulation` inside the query
`"new regulation text"`. -/
theorem duplicate_compliance_rules_witness :
    lc "regulation" ∈ [lc "regulation", lc "requirement", lc "protocol", lc "compliance"] ∧
      pyIn (lc "regulation") (lc "new regulation text") = true ∧
      (score_pattern_rules build_rules (lc "new regulation text")).doc_score =
        (score_pattern_rules
          (build_rules.filter (fun r => !(r.pattern == lc "regulation")))
          (lc "new regulation text")).doc_score + 1.8 := by
  refine ⟨by decide, by decide, ?_⟩
  exact ((duplicate_compliance_rules (lc "regulation") (by decide)).2
    (lc "new regulation text") (by decide)).2

end Mona
